import Mathlib

/-!
Verification development for the Chinese text preprocessing / similarity
repository.  Texts are modelled as lists of characters (`Str`), Python sets
as `Finset Str`, and the external `jieba` segmenter as an abstract function
parameter `seg : Str → List Str` (the spec treats the segmenter as a black
box whose only contract is determinism).  Similarity matrices computed by
the external sklearn library enter each function as a parameter, exactly as
`cosine_sim_matrix` is a parameter of `find_high_similarity_pairs` in the
source.  Machine floats are modelled by `ℚ`; none of the verified claims
depends on floating-point rounding.
-/

/-- Texts are lists of characters. -/
abbrev Str := List Char

/-- ASCII decimal digit, the class `[0-9]`. -/
def isAsciiDigit (c : Char) : Bool := '0' ≤ c && c ≤ '9'

/-- Latin letter, the class `[A-Za-z]` used by the special-token regex. -/
def isLatinLetter (c : Char) : Bool := ('A' ≤ c && c ≤ 'Z') || ('a' ≤ c && c ≤ 'z')

/-- Python regex class `\s` (and `str.isspace` and `str.strip`): ASCII
whitespace together with the ideographic space U+3000, the only non-ASCII
whitespace character relevant to this corpus. -/
def isSpaceChar (c : Char) : Bool :=
  c = ' ' || c = '\t' || c = '\n' || c = '\x0d' || c = '\x0b' || c = '\x0c' ||
  c.toNat = 0x3000

/-- Python regex class `\d` on the character ranges occurring in this
development: ASCII digits and full-width digits U+FF10–U+FF19. -/
def isDigitChar (c : Char) : Bool :=
  isAsciiDigit c || (0xFF10 ≤ c.toNat && c.toNat ≤ 0xFF19)

/-- Python regex class `\w` (Unicode word character) on the character ranges
occurring in this development: ASCII alphanumerics and underscore, CJK
unified ideographs U+4E00–U+9FFF, and the full-width alphanumerics inside
U+FF01–U+FF5E. -/
def isWordChar (c : Char) : Bool :=
  c.isAlpha || isAsciiDigit c || c = '_' ||
  (0x4E00 ≤ c.toNat && c.toNat ≤ 0x9FFF) ||
  (0xFF10 ≤ c.toNat && c.toNat ≤ 0xFF19) ||
  (0xFF21 ≤ c.toNat && c.toNat ≤ 0xFF3A) ||
  (0xFF41 ≤ c.toNat && c.toNat ≤ 0xFF5A)

/-- Python `str.strip`: drop leading and trailing whitespace. -/
def strip (s : Str) : Str :=
  ((s.dropWhile isSpaceChar).reverse.dropWhile isSpaceChar).reverse

/-- Python `str.isspace`: non-empty and made of whitespace only. -/
def pyIsSpace (s : Str) : Bool := !s.isEmpty && s.all isSpaceChar

/-- Model of `re.sub(r'[^\w\s]', ' ', text)`: every character that is neither
a word character nor whitespace becomes a single space. -/
def subNonWordToSpace (s : Str) : Str :=
  s.map (fun c => if !isWordChar c && !isSpaceChar c then ' ' else c)

/-- Model of `re.sub` replacing every maximal run of characters satisfying
`p` by the fixed replacement `rep` (used for `\d+` and `\s+`).  The flag
records whether the previous character was part of a run, so each run
contributes one copy of `rep`. -/
def subRuns (p : Char → Bool) (rep : Str) : Bool → Str → Str
  | _, [] => []
  | inRun, c :: rest =>
    if p c then (if inRun then [] else rep) ++ subRuns p rep true rest
    else c :: subRuns p rep false rest

/-- Model of `re.findall(r'([A-Za-z][^\w\s][A-Za-z])', text)`: left-to-right
non-overlapping scan for a Latin letter, one non-word non-space character,
and a Latin letter. -/
def findSpecialPatterns : Str → List Str
  | a :: b :: c :: rest =>
    if isLatinLetter a && (!isWordChar b && !isSpaceChar b) && isLatinLetter c then
      [a, b, c] :: findSpecialPatterns rest
    else
      findSpecialPatterns (b :: c :: rest)
  | _ => []

/-- Worker for `replaceAll`: while the skip counter is positive the scanner
is inside an already-matched occurrence and just consumes characters; at
zero it checks whether the pattern starts here and, if so, emits nothing
and skips the rest of the occurrence. -/
def replaceAllAux (pat : Str) : ℕ → Str → Str
  | _, [] => []
  | skip + 1, _ :: rest => replaceAllAux pat skip rest
  | 0, c :: rest =>
    if pat.length ≠ 0 ∧ pat.isPrefixOf (c :: rest) then
      replaceAllAux pat (pat.length - 1) rest
    else
      c :: replaceAllAux pat 0 rest

/-- Model of Python `text.replace(pat, '')`: delete every left-to-right
non-overlapping occurrence of `pat`. -/
def replaceAll (pat : Str) (s : Str) : Str := replaceAllAux pat 0 s

namespace chinese_text_preprocessor

/-- Model of `chinese_text_preprocessor.extract_special_patterns`: the list of
matches of the special-token regex, paired with the text after deleting every
occurrence of each matched value (the source stores the latter in
`self.cleaned_text`). -/
def extract_special_patterns (text : Str) : List Str × Str :=
  let patterns := findSpecialPatterns text
  (patterns, patterns.foldl (fun t p => replaceAll p t) text)

/-- Model of the per-character conversion inside
`chinese_text_preprocessor.full_to_half`:
`chr(ord(c) - 0xfee0 if 0xFF01 <= ord(c) <= 0xFF5E else 32 if ord(c) == 0x3000 else ord(c))`. -/
def fullToHalfChar (c : Char) : Char :=
  if 0xFF01 ≤ c.toNat ∧ c.toNat ≤ 0xFF5E then Char.ofNat (c.toNat - 0xFEE0)
  else if c.toNat = 0x3000 then Char.ofNat 32
  else c

/-- Model of `chinese_text_preprocessor.full_to_half`: apply the conversion to
every character. -/
def full_to_half (s : Str) : Str := s.map fullToHalfChar

/-- Model of `chinese_text_preprocessor.normalize_text`: just full-width to
half-width folding. -/
def normalize_text (text : Str) : Str := full_to_half text

/-- Model of `chinese_text_preprocessor.remove_special_characters`: replace
non-word non-space characters by spaces, replace digit runs by a space,
collapse whitespace runs to single spaces and strip. -/
def remove_special_characters (text : Str) : Str :=
  let t := subNonWordToSpace text
  let t := subRuns isDigitChar [' '] false t
  strip (subRuns isSpaceChar [' '] false t)

/-- Model of `chinese_text_preprocessor.remove_stop_words`: segment with the
external tokenizer and drop the tokens that are stop words. -/
def remove_stop_words (seg : Str → List Str) (stop : Finset Str) (text : Str) :
    Finset Str :=
  (seg text).toFinset.filter (fun w => w ∉ stop)

/-- Model of `chinese_text_preprocessor.preprocess`: extract special patterns,
normalize the cleaned text, strip special characters and digits, segment and
filter stop words, drop whitespace-only tokens, and union the special
patterns back in. -/
def preprocess (seg : Str → List Str) (stop : Finset Str) (text : Str) :
    Finset Str :=
  let pats := extract_special_patterns text
  let t := normalize_text pats.2
  let t := remove_special_characters t
  let words := remove_stop_words seg stop t
  let words := words.filter (fun w => strip w ≠ [])
  words ∪ pats.1.toFinset

end chinese_text_preprocessor

namespace InputProcessor

/-- Model of `InputProcessor.extract_special_patterns` from
`input_processor_port.py`: unlike the batch preprocessor, this variant
returns only the cleaned text and discards the matched patterns. -/
def extract_special_patterns (text : Str) : Str :=
  (findSpecialPatterns text).foldl (fun t p => replaceAll p t) text

/-- Model of `InputProcessor.normalize_text`, which inlines the same
per-character full-width conversion as `full_to_half`. -/
def normalize_text (text : Str) : Str :=
  text.map chinese_text_preprocessor.fullToHalfChar

/-- Model of `InputProcessor.remove_special_characters` (same three `re.sub`
passes as the batch preprocessor). -/
def remove_special_characters (text : Str) : Str :=
  let t := subNonWordToSpace text
  let t := subRuns isDigitChar [' '] false t
  strip (subRuns isSpaceChar [' '] false t)

/-- Model of `InputProcessor.remove_stop_words`. -/
def remove_stop_words (seg : Str → List Str) (stop : Finset Str) (text : Str) :
    Finset Str :=
  (seg text).toFinset.filter (fun w => w ∉ stop)

/-- Model of `InputProcessor.preprocess`: same chain as the batch
preprocessor, except that the extracted special patterns are never added
back to the result. -/
def preprocess (seg : Str → List Str) (stop : Finset Str) (text : Str) :
    Finset Str :=
  let t := extract_special_patterns text
  let t := normalize_text t
  let t := remove_special_characters t
  let words := remove_stop_words seg stop t
  words.filter (fun w => strip w ≠ [])

end InputProcessor

namespace TextPreprocessor

/-- Model of `TextPreprocessor.preprocess` from `compare_similarity_port.py`
as the list of kept tokens: replace non-word non-space characters by spaces,
delete digit runs (with an empty replacement, not a space), segment, and keep
tokens that are neither stop words nor whitespace-only.  The source joins
this list with single spaces; the token-set view is its `Finset`. -/
def keptWords (seg : Str → List Str) (stop : Finset Str) (text : Str) :
    List Str :=
  let t := subNonWordToSpace text
  let t := subRuns isDigitChar [] false t
  (seg t).filter (fun w => decide (w ∉ stop) && !pyIsSpace w)

/-- Model of `TextPreprocessor.preprocess` itself: the kept tokens joined
with single spaces (`' '.join(...)`). -/
def preprocess (seg : Str → List Str) (stop : Finset Str) (text : Str) : Str :=
  List.intercalate [' '] (keptWords seg stop text)

/-- Token-set view of `TextPreprocessor.preprocess`, for comparison with the
set-valued preprocessors. -/
def tokenSet (seg : Str → List Str) (stop : Finset Str) (text : Str) :
    Finset Str :=
  (keptWords seg stop text).toFinset

end TextPreprocessor

/-- Concrete whitespace-splitting segmenter, used as a stand-in for the
external tokenizer at concrete evaluation points (on space-separated Latin
text the external segmenter behaves this way). -/
def segWSAux : Str → Str → List Str
  | acc, [] => [acc.reverse]
  | acc, c :: rest =>
    if c = ' ' then acc.reverse :: segWSAux [] rest
    else segWSAux (c :: acc) rest

/-- Whitespace splitter on a text. -/
def segWS (s : Str) : List Str := segWSAux [] s

/-- Model of one regex group `[0-9]{1,3}` followed by more pattern: a greedy
digit run that succeeds only when its full length is between 1 and 3 (a
longer run cannot be split, because the following pattern character would
then face a digit).  Returns the run and the remainder. -/
def matchDigits13 (s : Str) : Option (Str × Str) :=
  if 1 ≤ (s.takeWhile isAsciiDigit).length ∧ (s.takeWhile isAsciiDigit).length ≤ 3 then
    some (s.takeWhile isAsciiDigit, s.drop (s.takeWhile isAsciiDigit).length)
  else none

/-- Model of the group `[0-9]{1,3}\.` of the IP regex. -/
def matchOctetDot (s : Str) : Option (Str × Str) :=
  match matchDigits13 s with
  | some (r, '.' :: rest) => some (r ++ ['.'], rest)
  | _ => none

/-- Model of matching `(?:[0-9]{1,3}\.){3}[0-9]{1,3}\b` at the head of the
text (the caller has already checked the leading word boundary).  Returns
the matched substring and the remainder. -/
def matchIPAt (s : Str) : Option (Str × Str) :=
  match matchOctetDot s with
  | none => none
  | some (m1, s1) =>
    match matchOctetDot s1 with
    | none => none
    | some (m2, s2) =>
      match matchOctetDot s2 with
      | none => none
      | some (m3, s3) =>
        match matchDigits13 s3 with
        | none => none
        | some (r4, rem) =>
          match rem with
          | [] => some (m1 ++ m2 ++ m3 ++ r4, [])
          | c :: _ =>
            if isWordChar c then none else some (m1 ++ m2 ++ m3 ++ r4, rem)

/-- Model of `re.findall(r'\b(?:[0-9]{1,3}\.){3}[0-9]{1,3}\b', text)`: scan
left to right; at every position that sits at a word boundary (the previous
character, tracked by the flag, is not a word character), try to match the
IP shape; on success emit the match and resume after it, consuming its
remaining characters through the skip counter (after a match the previous
character is a digit, hence a word character). -/
def findIPsAux : ℕ → Bool → Str → List Str
  | _, _, [] => []
  | skip + 1, _, _ :: rest => findIPsAux skip true rest
  | 0, prevWord, c :: rest =>
    if prevWord then findIPsAux 0 (isWordChar c) rest
    else
      match matchIPAt (c :: rest) with
      | some (m, _) => m :: findIPsAux (m.length - 1) true rest
      | none => findIPsAux 0 (isWordChar c) rest

/-- IP-address occurrences of a text, in scan order. -/
def findIPs (s : Str) : List Str := findIPsAux 0 false s

/-- Model of `InputProcessor.extract_ip_addresses`: the set of IP-shaped
substrings of the text. -/
def InputProcessor.extract_ip_addresses (text : Str) : Finset Str :=
  (findIPs text).toFinset

/-- The reserved sentinel token added by the `/process` endpoint. -/
def ipSentinel : Str := "%ip".data

/-- Model of the `/process` endpoint `process_text` of
`input_processor_port.py`: reject empty input, otherwise preprocess and add
the sentinel token `%ip` unconditionally (the source never calls
`extract_ip_addresses`). -/
def process_text (seg : Str → List Str) (stop : Finset Str) (text : Str) :
    Except Str (Finset Str) :=
  if text = [] then Except.error "No text provided".data
  else Except.ok (insert ipSentinel (InputProcessor.preprocess seg stop text))

/-- Model of `find_high_similarity_pairs` from `compare_similarity.py`: for
every `i` in `range(len(data))` and every `j` in `range(i+1, len(data))`,
report the pair of original texts whenever the similarity matrix entry
strictly exceeds the threshold.  The cosine similarity matrix is a parameter
of the source function as well (it is computed by the external sklearn
library in `main`); the source calls it with `threshold=0.6`. -/
def find_high_similarity_pairs (cosine_sim_matrix : ℕ → ℕ → ℚ) (data : List Str)
    (threshold : ℚ) : List (Str × Str) :=
  (List.range data.length).flatMap (fun i =>
    (List.range' (i + 1) (data.length - (i + 1))).filterMap (fun j =>
      if threshold < cosine_sim_matrix i j then
        some (data.getD i [], data.getD j [])
      else none))

/-- Outcome of `check_similarity` from `compare_similarity_port.py`: the
"too similar" dictionary carries an error message, the other carries an
acceptance message; both carry the maximal score. -/
inductive SimDecision
  | tooSimilar (score : ℚ)
  | distinct (score : ℚ)
deriving DecidableEq

/-- Model of `check_similarity`: take the maximum of the cosine similarities
of the input against every dataset row; report "too similar" when it
strictly exceeds the threshold.  `none` models the `ValueError` that
`cosine_sim.max()` raises when the similarity array is empty. -/
def check_similarity (sims : List ℚ) (threshold : ℚ) : Option SimDecision :=
  match sims.max? with
  | none => none
  | some m => some (if threshold < m then .tooSimilar m else .distinct m)

/-- Result of `vectorize_data` from `compare_similarity_port.py`: the rows
of the fitted matrix except the last (`X[:-1]`), and the last row (`X[-1]`),
which is the vector of the preprocessed query. -/
structure VectorizedData where
  dataset : List (List ℚ)
  query : List ℚ
deriving DecidableEq

instance {ε α : Type} [DecidableEq ε] [DecidableEq α] : DecidableEq (Except ε α) :=
  fun a b =>
    match a, b with
    | .error e, .error f =>
      if h : e = f then isTrue (congrArg Except.error h)
      else isFalse fun hc => h (Except.error.inj hc)
    | .ok x, .ok y =>
      if h : x = y then isTrue (congrArg Except.ok h)
      else isFalse fun hc => h (Except.ok.inj hc)
    | .error _, .ok _ => isFalse fun hc => Except.noConfusion hc
    | .ok _, .error _ => isFalse fun hc => Except.noConfusion hc

/-- Model of `vectorize_data` from `compare_similarity_port.py`: preprocess
the input text, append it to the corpus rows, fit the vectorizer over the
combined collection (`fit` abstracts `TfidfVectorizer.fit_transform`, an
external sklearn call producing one row per document), and split off the
query row.  Note that no emptiness check is performed anywhere: an empty
corpus simply leads to a one-document fit. -/
def vectorize_data (pre : Str → Str) (fit : List Str → List (List ℚ))
    (rows : List Str) (input_text : Str) : VectorizedData :=
  let all_text := rows ++ [pre input_text]
  let X := fit all_text
  ⟨X.dropLast, X.getLastD []⟩

/-- Message of the `ValueError` raised by `cosine_sim.max()` on an empty
array, which the endpoint catches and returns as a generic 500 error. -/
def zeroSizeReductionMsg : Str := "zero-size array to reduction".data

/-- Message of the 400 response for missing input text. -/
def noTextProvidedMsg : Str := "no text provided".data

/-- Model of the `/similarity_check` endpoint of
`compare_similarity_port.py`: reject empty input with a 400 error,
otherwise vectorize the corpus plus the preprocessed query, compute the
cosine similarities of the query row against the corpus rows (`cos`
abstracts the external sklearn `cosine_similarity` call), and run
`check_similarity` with the default threshold 0.6.  Any exception is caught
and surfaced as a generic error; the only exception reachable in this model
is the empty-array reduction inside `max()`. -/
def similarity_check (pre : Str → Str) (fit : List Str → List (List ℚ))
    (cos : List ℚ → List (List ℚ) → List ℚ) (rows : List Str) (input_text : Str) :
    Except Str SimDecision :=
  if input_text = [] then Except.error noTextProvidedMsg
  else
    let vd := vectorize_data pre fit rows input_text
    match check_similarity (cos vd.query vd.dataset) (6 / 10) with
    | none => Except.error zeroSizeReductionMsg
    | some d => Except.ok d

/-- Model of `load_stop_words` (identical in all three preprocessing
classes): `none` models a missing file, recovered as the empty set;
otherwise the set of stripped lines (note that a blank line contributes the
empty string to the set, since the comprehension `{line.strip() for line in
file}` performs no emptiness filtering). -/
def load_stop_words : Option (List Str) → Finset Str
  | none => ∅
  | some lines => (lines.map strip).toFinset

/-- Ascending comparison used to model `numpy.argsort` on the score vector:
order index `i` before index `j` when its score is smaller, breaking ties by
index (the stable behaviour numpy exhibits on these arrays). -/
def ascRel (sims : List ℚ) (i j : ℕ) : Prop :=
  sims.getD i 0 < sims.getD j 0 ∨ (sims.getD i 0 = sims.getD j 0 ∧ i ≤ j)

instance (sims : List ℚ) : DecidableRel (ascRel sims) := fun i j => by
  unfold ascRel; exact inferInstance

instance (sims : List ℚ) : IsTotal ℕ (ascRel sims) where
  total i j := by
    unfold ascRel
    rcases lt_trichotomy (sims.getD i 0) (sims.getD j 0) with h | h | h
    · exact Or.inl (Or.inl h)
    · rcases Nat.le_total i j with hij | hij
      · exact Or.inl (Or.inr ⟨h, hij⟩)
      · exact Or.inr (Or.inr ⟨h.symm, hij⟩)
    · exact Or.inr (Or.inl h)

instance (sims : List ℚ) : IsTrans ℕ (ascRel sims) where
  trans i j k hij hjk := by
    unfold ascRel at *
    rcases hij with h1 | ⟨h1, h1'⟩ <;> rcases hjk with h2 | ⟨h2, h2'⟩
    · exact Or.inl (h1.trans h2)
    · exact Or.inl (h2 ▸ h1)
    · exact Or.inl (h1 ▸ h2)
    · exact Or.inr ⟨h1.trans h2, h1'.trans h2'⟩

instance (sims : List ℚ) : IsAntisymm ℕ (ascRel sims) where
  antisymm i j hij hji := by
    unfold ascRel at *
    rcases hij with h1 | ⟨h1, h1'⟩ <;> rcases hji with h2 | ⟨h2, h2'⟩
    · exact absurd (h1.trans h2) (lt_irrefl _)
    · exact absurd h1 (h2 ▸ lt_irrefl _)
    · exact absurd h2 (h1 ▸ lt_irrefl _)
    · exact Nat.le_antisymm h1' h2'

/-- Model of `cosine_similarities.argsort()`: the indices of the score
vector sorted ascending by score.  numpy's argsort on these arrays is
stable, so ties are ordered by ascending index; with that tie-break the
ascending order is a linear order and the sorted permutation of the indices
is unique, so insertion sort computes exactly it. -/
def argsortAsc (sims : List ℚ) : List ℕ :=
  List.insertionSort (ascRel sims) (List.range sims.length)

/-- Model of the Python slice `l[-n:]`: the last `n` elements — except that
`l[-0:]` is the whole list, a genuine quirk of the source when `top_n = 0`. -/
def pyLastSlice (n : ℕ) (l : List ℕ) : List ℕ :=
  if n = 0 then l else l.drop (l.length - n)

/-- Model of `find_most_similar_questions` from `vectorize.py`: sort the
indices of the cosine-similarity vector ascending, keep the last `top_n`,
reverse, and read off the question text and score of each selected corpus
row.  The cosine-similarity vector is computed by the external sklearn
library from the query and the corpus matrix, so it enters as a parameter;
the source defaults `top_n` to 5. -/
def find_most_similar_questions (cosine_similarities : List ℚ) (data : List Str)
    (top_n : ℕ) : List (Str × ℚ) :=
  ((pyLastSlice top_n (argsortAsc cosine_similarities)).reverse).map
    (fun index => (data.getD index [], cosine_similarities.getD index 0))

/-- Descending comparison formalizing the ranking that
`find_most_similar_questions` actually produces: higher score first, and
among equal scores the larger corpus index first. -/
def descRel (sims : List ℚ) (i j : ℕ) : Prop := ascRel sims j i

instance (sims : List ℚ) : DecidableRel (descRel sims) := fun i j => by
  unfold descRel; exact inferInstance

instance (sims : List ℚ) : IsTotal ℕ (descRel sims) where
  total i j := by
    unfold descRel
    exact IsTotal.total (r := ascRel sims) j i

instance (sims : List ℚ) : IsTrans ℕ (descRel sims) where
  trans i j k hij hjk := by
    unfold descRel at *
    exact IsTrans.trans (r := ascRel sims) k j i hjk hij

instance (sims : List ℚ) : IsAntisymm ℕ (descRel sims) where
  antisymm i j hij hji := by
    unfold descRel at *
    exact IsAntisymm.antisymm (r := ascRel sims) i j hji hij

/-- Ranking of all corpus indices by descending score, ties broken by the
later index first: the reference order against which the retrieval function
is verified. -/
def rankedIndices (sims : List ℚ) : List ℕ :=
  List.insertionSort (descRel sims) (List.range sims.length)

/-- Spec-side shape of a special token: a Latin letter, one non-word
non-space character, and a Latin letter. -/
def isSpecialShape : Str → Bool
  | [a, b, c] => isLatinLetter a && (!isWordChar b && !isSpaceChar b) && isLatinLetter c
  | _ => false

/-- Spec-side notion of the full-width variant of a half-width character:
shift a printable ASCII character up by the fixed offset 0xFEE0 and map the
ordinary space to the ideographic space U+3000. -/
def halfToFullChar (c : Char) : Char :=
  if 0x21 ≤ c.toNat ∧ c.toNat ≤ 0x7E then Char.ofNat (c.toNat + 0xFEE0)
  else if c = ' ' then Char.ofNat 0x3000
  else c

/-- Spec-side reading of the stop-word loader: one stop word per distinct
non-empty trimmed line. -/
def loadStopWordsSpec (lines : List Str) : Finset Str :=
  ((lines.map strip).filter (fun w => w ≠ [])).toFinset

/-- Stop-word filtering and whitespace filtering commute with the final
union against the special-pattern side set: the batch pipeline and the
service pipeline share every stage except that union. -/
theorem ctp_eq_ip_union_patterns (seg : Str → List Str) (stop : Finset Str)
    (text : Str) :
    chinese_text_preprocessor.preprocess seg stop text =
      InputProcessor.preprocess seg stop text ∪ (findSpecialPatterns text).toFinset :=
  rfl

/-- Every pattern extracted by the special-token scan ends up in the final
token set of the batch preprocessor, because the union with the side set is
the last step of the pipeline. -/
theorem extracted_pattern_mem_preprocess (seg : Str → List Str) (stop : Finset Str)
    (text : Str) (p : Str) (hp : p ∈ findSpecialPatterns text) :
    p ∈ chinese_text_preprocessor.preprocess seg stop text := by
  unfold chinese_text_preprocessor.preprocess
  exact Finset.mem_union_right _ (List.mem_toFinset.mpr hp)

/-- C1 (amended): the batch entry point and the service entry point produce
the same canonical token set up to the special-pattern side set — the batch
result is exactly the service result united with the extracted special
patterns, so the two coincide precisely on inputs whose extracted patterns
all survive the service pipeline (in particular on inputs with no special
pattern) — while the query-path preprocessor follows a different
normalization and does not produce the same token set in general. -/
theorem preprocess_entry_points_relation :
    (∀ (seg : Str → List Str) (stop : Finset Str) (text : Str),
      chinese_text_preprocessor.preprocess seg stop text =
        InputProcessor.preprocess seg stop text ∪ (findSpecialPatterns text).toFinset) ∧
    TextPreprocessor.tokenSet segWS ∅ "A/B".data ≠
      chinese_text_preprocessor.preprocess segWS ∅ "A/B".data := by
  refine ⟨fun seg stop text => ctp_eq_ip_union_patterns seg stop text, ?_⟩
  decide

/-- C1 counterexample: on the raw input "A/B" the three preprocessing entry
points return three pairwise different token sets — the batch preprocessor
keeps the protected token, the service preprocessor drops it, and the
query-path preprocessor splits it at the slash. -/
theorem preprocess_entry_points_differ_cex :
    chinese_text_preprocessor.preprocess segWS ∅ "A/B".data ≠
      InputProcessor.preprocess segWS ∅ "A/B".data ∧
    chinese_text_preprocessor.preprocess segWS ∅ "A/B".data ≠
      TextPreprocessor.tokenSet segWS ∅ "A/B".data := by
  exact ⟨by decide, by decide⟩

/-- C4 (amended): every pattern actually found by the left-to-right
non-overlapping special-token scan appears verbatim in the TokenSet returned
by the batch preprocessor; substrings of the special shape that overlap an
earlier match can be missed by the scan and destroyed by the generic
stripping. -/
theorem special_pattern_preserved (seg : Str → List Str) (stop : Finset Str)
    (text : Str) (p : Str) (hp : p ∈ findSpecialPatterns text) :
    p ∈ chinese_text_preprocessor.preprocess seg stop text :=
  extracted_pattern_mem_preprocess seg stop text p hp

/-- Witness for the amended C4 theorem: on "A/B test" the scan finds "A/B"
and the preprocessed token set contains it verbatim. -/
theorem special_pattern_preserved_witness :
    "A/B".data ∈ findSpecialPatterns "A/B test".data ∧
    "A/B".data ∈ chinese_text_preprocessor.preprocess segWS ∅ "A/B test".data :=
  ⟨by decide, special_pattern_preserved segWS ∅ "A/B test".data "A/B".data (by decide)⟩

/-- C4 counterexample: in "A/B@C" the substring "B@C" matches the
special-token shape, yet the returned TokenSet does not contain it: the
scan consumed "A/B" first and resumed after it, so the "@" was stripped. -/
theorem special_pattern_shape_lost_cex :
    isSpecialShape "B@C".data = true ∧
    List.IsInfix "B@C".data "A/B@C".data ∧
    "B@C".data ∉ chinese_text_preprocessor.preprocess segWS ∅ "A/B@C".data := by
  exact ⟨by decide, by decide, by decide⟩

/-- C10: an extracted special pattern that is itself a stop word still
appears in the returned TokenSet, because the union with the special-pattern
side set happens after stop-word filtering. -/
theorem special_pattern_beats_stop_words (seg : Str → List Str) (stop : Finset Str)
    (text : Str) (p : Str) (hp : p ∈ findSpecialPatterns text) (hstop : p ∈ stop) :
    p ∈ chinese_text_preprocessor.preprocess seg stop text :=
  extracted_pattern_mem_preprocess seg stop text p hp

/-- Witness for C10: with "A/B" declared a stop word, preprocessing
"A/B test" still returns a set containing "A/B". -/
theorem special_pattern_beats_stop_words_witness :
    "A/B".data ∈ findSpecialPatterns "A/B test".data ∧
    "A/B".data ∈ ({"A/B".data} : Finset Str) ∧
    "A/B".data ∈
      chinese_text_preprocessor.preprocess segWS {"A/B".data} "A/B test".data :=
  ⟨by decide, by decide,
    special_pattern_beats_stop_words segWS {"A/B".data} "A/B test".data "A/B".data
      (by decide) (by decide)⟩

/-- C9 (amended): the stop-word loader returns the set of all distinct
trimmed lines — a whitespace-only line contributes the empty string, since
the comprehension performs no emptiness filtering — and a missing file
yields the empty set without an error. -/
theorem load_stop_words_spec :
    (∀ (lines : List Str) (w : Str),
      w ∈ load_stop_words (some lines) ↔ ∃ l ∈ lines, strip l = w) ∧
    load_stop_words none = ∅ := by
  refine ⟨fun lines w => ?_, rfl⟩
  simp [load_stop_words, List.mem_toFinset, List.mem_map]

/-- C9 counterexample: on a file whose lines are "a" and a blank line, the
loader returns a set containing the empty string, which is not the set of
non-empty trimmed lines the claim describes. -/
theorem load_stop_words_blank_line_cex :
    load_stop_words (some [['a'], []]) ≠ loadStopWordsSpec [['a'], []] ∧
    [] ∈ load_stop_words (some [['a'], []]) := by
  exact ⟨by decide, by decide⟩

/-- Membership characterization of the pairwise duplicate scan, shared by
the functional-correctness and monotonicity results. -/
theorem mem_find_high_similarity_pairs (M : ℕ → ℕ → ℚ) (data : List Str)
    (t : ℚ) (p : Str × Str) :
    p ∈ find_high_similarity_pairs M data t ↔
      ∃ i j, i < j ∧ j < data.length ∧ t < M i j ∧
        p = (data.getD i [], data.getD j []) := by
  unfold find_high_similarity_pairs
  simp only [List.mem_flatMap, List.mem_filterMap, List.mem_range, List.mem_range'_1,
    Option.ite_none_right_eq_some, Option.some.injEq]
  constructor
  · rintro ⟨i, hi, j, ⟨hj1, hj2⟩, ht, hp⟩
    exact ⟨i, j, by omega, by omega, ht, hp.symm⟩
  · rintro ⟨i, j, hij, hj, ht, hp⟩
    exact ⟨i, by omega, j, ⟨by omega, by omega⟩, ht, hp.symm⟩

/-- C5: the pairwise duplicate scan returns exactly the pairs of original
texts at positions i < j whose similarity-matrix entry strictly exceeds the
threshold (the source's default threshold argument is 0.6, and the matrix
entries are the pairwise cosine similarities computed by the caller). -/
theorem find_high_similarity_pairs_exact (M : ℕ → ℕ → ℚ) (data : List Str)
    (t : ℚ) (p : Str × Str) :
    p ∈ find_high_similarity_pairs M data t ↔
      ∃ i j, i < j ∧ j < data.length ∧ t < M i j ∧
        p = (data.getD i [], data.getD j []) :=
  mem_find_high_similarity_pairs M data t p

/-- C7: with thresholds t1 ≤ t2, every duplicate pair reported at t2 is
also reported at t1, and a query judged distinct enough at t1 is never
judged too similar at t2. -/
theorem threshold_monotonicity (M : ℕ → ℕ → ℚ) (data : List Str)
    (sims : List ℚ) (t1 t2 : ℚ) (h : t1 ≤ t2) :
    (∀ p, p ∈ find_high_similarity_pairs M data t2 →
      p ∈ find_high_similarity_pairs M data t1) ∧
    (∀ d, check_similarity sims t1 = some (SimDecision.distinct d) →
      ∀ s, check_similarity sims t2 ≠ some (SimDecision.tooSimilar s)) := by
  constructor
  · intro p hp
    rw [mem_find_high_similarity_pairs] at hp ⊢
    obtain ⟨i, j, hij, hj, ht, hpe⟩ := hp
    exact ⟨i, j, hij, hj, lt_of_le_of_lt h ht, hpe⟩
  · intro d hd s hs
    unfold check_similarity at hd hs
    cases hmax : sims.max? with
    | none => rw [hmax] at hd; exact absurd hd (by simp)
    | some m =>
      rw [hmax] at hd hs
      simp only [Option.some.injEq] at hd hs
      split at hd
      · exact absurd hd (by simp)
      · rename_i hlt1
        split at hs
        · rename_i hlt2
          exact hlt1 (lt_of_le_of_lt h hlt2)
        · exact absurd hs (by simp)

/-- Witness for C7 at thresholds 1 ≤ 2, a constant similarity matrix over a
two-entry corpus, and a singleton score vector. -/
theorem threshold_monotonicity_witness :
    ("a".data, "b".data) ∈
      find_high_similarity_pairs (fun _ _ => 3) ["a".data, "b".data] 1 ∧
    check_similarity [(1 : ℚ)] 2 ≠ some (SimDecision.tooSimilar 1) := by
  constructor
  · exact (threshold_monotonicity (fun _ _ => 3) ["a".data, "b".data]
      [(1 : ℚ)] 1 2 (by decide)).1 ("a".data, "b".data) (by decide)
  · exact (threshold_monotonicity (fun _ _ => 3) ["a".data, "b".data]
      [(1 : ℚ)] 1 2 (by decide)).2 1 (by decide) 1

/-- C6 (amended): a query against an empty corpus does not fail inside
vectorization — the fit succeeds over the single query document and the
corpus part of the split matrix is the degenerate zero-row matrix — and the
failure that eventually surfaces is the generic exception raised by the
empty-array max() reduction, caught and returned as an unstructured 500
error; no EmptyCorpus condition exists anywhere in the code. -/
theorem empty_corpus_degenerate (pre : Str → Str) (fit : List Str → List (List ℚ))
    (cos : List ℚ → List (List ℚ) → List ℚ) (input_text : Str)
    (hfit : ∀ docs, (fit docs).length = docs.length)
    (hcos : ∀ v rows, (cos v rows).length = rows.length)
    (hq : input_text ≠ []) :
    (vectorize_data pre fit [] input_text).dataset = [] ∧
    similarity_check pre fit cos [] input_text = Except.error zeroSizeReductionMsg := by
  have hdata : (vectorize_data pre fit [] input_text).dataset = [] := by
    show (fit ([] ++ [pre input_text])).dropLast = []
    simp only [List.nil_append]
    have hlen := hfit [pre input_text]
    simp only [List.length_cons, List.length_nil] at hlen
    cases hfitv : fit [pre input_text] with
    | nil => simp
    | cons a t =>
      rw [hfitv] at hlen
      simp only [List.length_cons] at hlen
      have ht : t = [] := List.length_eq_zero.mp (by omega)
      subst ht
      simp
  refine ⟨hdata, ?_⟩
  have hsims : cos (vectorize_data pre fit [] input_text).query
      (vectorize_data pre fit [] input_text).dataset = [] := by
    rw [hdata]
    exact List.length_eq_zero.mp (hcos _ [])
  simp only [similarity_check, if_neg hq, hsims]
  rfl

/-- Witness for the amended C6 theorem, with a concrete one-hot vectorizer
and a constant cosine function. -/
theorem empty_corpus_degenerate_witness :
    (vectorize_data id (fun docs => docs.map fun _ => [(1 : ℚ)]) []
      "I/O error on device 42".data).dataset = [] ∧
    similarity_check id (fun docs => docs.map fun _ => [(1 : ℚ)])
      (fun _ rows => rows.map fun _ => (1 : ℚ)) [] "I/O error on device 42".data =
      Except.error zeroSizeReductionMsg :=
  empty_corpus_degenerate id (fun docs => docs.map fun _ => [(1 : ℚ)])
    (fun _ rows => rows.map fun _ => (1 : ℚ)) "I/O error on device 42".data
    (fun docs => by simp) (fun v rows => by simp) (by decide)

/-- C6 counterexample: querying the empty corpus does not produce an
EmptyCorpus-style failure — vectorization succeeds and returns a zero-row
corpus matrix, and the error that the endpoint eventually surfaces is the
generic caught-exception message of the empty max() reduction, not a
structured EmptyCorpus error. -/
theorem empty_corpus_no_failure_cex :
    (vectorize_data id (fun docs => docs.map fun _ => [(1 : ℚ)]) []
      "query".data).dataset.length = 0 ∧
    similarity_check id (fun docs => docs.map fun _ => [(1 : ℚ)])
      (fun _ rows => rows.map fun _ => (1 : ℚ)) [] "query".data =
      Except.error zeroSizeReductionMsg := by
  exact ⟨by decide, by decide⟩

/-- C2: the `/process` endpoint adds the sentinel token `%ip` to every
non-empty input, even when the text contains no IP-address-shaped substring
at all — `extract_ip_addresses` is never called.  On the IP-free input
"hello world" the returned set still contains `%ip`. -/
theorem process_text_sentinel_without_ip :
    InputProcessor.extract_ip_addresses "hello world".data = ∅ ∧
    process_text segWS ∅ "hello world".data =
      Except.ok (insert ipSentinel {"hello".data, "world".data}) ∧
    ipSentinel ∈ insert ipSentinel ({"hello".data, "world".data} : Finset Str) := by
  exact ⟨by decide, by decide, by decide⟩

/-- Reading a valid code point back out of the character it denotes. -/
theorem toNat_ofNat_valid {n : ℕ} (h : n.isValidChar) : (Char.ofNat n).toNat = n := by
  simp only [Char.ofNat, dif_pos h]
  rfl

/-- Folding the full-width variant of a half-width character gives the same
result as folding the character itself. -/
theorem fullToHalfChar_halfToFullChar (d : Char)
    (hd : (0x21 ≤ d.toNat ∧ d.toNat ≤ 0x7E) ∨ d = ' ') :
    chinese_text_preprocessor.fullToHalfChar (halfToFullChar d) =
      chinese_text_preprocessor.fullToHalfChar d := by
  rcases hd with ⟨h1, h2⟩ | h
  · have hval : (d.toNat + 0xFEE0).isValidChar := by
      unfold Nat.isValidChar
      omega
    unfold halfToFullChar
    rw [if_pos ⟨h1, h2⟩]
    unfold chinese_text_preprocessor.fullToHalfChar
    rw [toNat_ofNat_valid hval]
    rw [if_pos (by omega), if_neg (by omega), if_neg (by omega)]
    rw [Nat.add_sub_cancel, Char.ofNat_toNat]
  · subst h
    decide

/-- C8: the per-character folding maps each code point in U+FF01..U+FF5E
down by the fixed offset 0xFEE0, maps the ideographic space U+3000 to an
ordinary space, leaves every other character unchanged, and consequently a
string of full-width characters normalizes to the same text as its
half-width equivalent. -/
theorem full_to_half_correct (c : Char) (s : Str)
    (hc : 0xFF01 ≤ c.toNat ∧ c.toNat ≤ 0xFF5E)
    (hs : ∀ d ∈ s, (0x21 ≤ d.toNat ∧ d.toNat ≤ 0x7E) ∨ d = ' ') :
    chinese_text_preprocessor.fullToHalfChar c = Char.ofNat (c.toNat - 0xFEE0) ∧
    chinese_text_preprocessor.fullToHalfChar (Char.ofNat 0x3000) = ' ' ∧
    (∀ d : Char, ¬(0xFF01 ≤ d.toNat ∧ d.toNat ≤ 0xFF5E) → d.toNat ≠ 0x3000 →
      chinese_text_preprocessor.fullToHalfChar d = d) ∧
    chinese_text_preprocessor.full_to_half (s.map halfToFullChar) =
      chinese_text_preprocessor.full_to_half s := by
  refine ⟨?_, by decide, ?_, ?_⟩
  · unfold chinese_text_preprocessor.fullToHalfChar
    rw [if_pos hc]
  · intro d h1 h2
    unfold chinese_text_preprocessor.fullToHalfChar
    rw [if_neg h1, if_neg h2]
  · induction s with
    | nil => rfl
    | cons d t ih =>
      have hd := hs d (List.mem_cons_self d t)
      have ht : ∀ e ∈ t, (0x21 ≤ e.toNat ∧ e.toNat ≤ 0x7E) ∨ e = ' ' :=
        fun e he => hs e (List.mem_cons_of_mem d he)
      simp only [List.map_cons, chinese_text_preprocessor.full_to_half] at ih ⊢
      rw [fullToHalfChar_halfToFullChar d hd]
      rw [ih ht]

/-- Witness for C8: the full-width exclamation mark folds to the ASCII one,
U+3000 folds to a space, an ASCII letter is untouched, and the full-width
variant of "Ab 1" folds to the same text as "Ab 1" itself. -/
theorem full_to_half_correct_witness :
    chinese_text_preprocessor.fullToHalfChar (Char.ofNat 0xFF01) =
      Char.ofNat ((Char.ofNat 0xFF01).toNat - 0xFEE0) ∧
    chinese_text_preprocessor.fullToHalfChar (Char.ofNat 0x3000) = ' ' ∧
    chinese_text_preprocessor.fullToHalfChar 'x' = 'x' ∧
    chinese_text_preprocessor.full_to_half ("Ab 1".data.map halfToFullChar) =
      chinese_text_preprocessor.full_to_half "Ab 1".data := by
  have h := full_to_half_correct (Char.ofNat 0xFF01) "Ab 1".data (by decide) (by decide)
  exact ⟨h.1, h.2.1, h.2.2.1 'x' (by decide) (by decide), h.2.2.2⟩

/-- Reversing an ascending argsort yields the descending ranking: both are
permutations of the index range and both are sorted by the descending
comparison, which is antisymmetric. -/
theorem argsortAsc_reverse_eq (sims : List ℚ) :
    (argsortAsc sims).reverse = rankedIndices sims := by
  have hperm : (argsortAsc sims).reverse.Perm (rankedIndices sims) := by
    unfold argsortAsc rankedIndices
    exact (List.reverse_perm _).trans
      ((List.perm_insertionSort _ _).trans (List.perm_insertionSort _ _).symm)
  have hs1 : List.Sorted (descRel sims) (argsortAsc sims).reverse := by
    show List.Pairwise (descRel sims) (argsortAsc sims).reverse
    rw [List.pairwise_reverse]
    exact List.sorted_insertionSort (ascRel sims) (List.range sims.length)
  have hs2 : List.Sorted (descRel sims) (rankedIndices sims) :=
    List.sorted_insertionSort _ _
  exact List.eq_of_perm_of_sorted hperm hs1 hs2

/-- Reversal swaps dropping a prefix for taking a suffix. -/
theorem reverse_drop_eq_take_reverse (l : List ℕ) (n : ℕ) :
    (l.drop n).reverse = l.reverse.take (l.length - n) := by
  induction l generalizing n with
  | nil => simp
  | cons a t ih =>
    cases n with
    | zero =>
      simp only [List.drop_zero, List.length_cons, Nat.sub_zero]
      rw [List.take_of_length_le (by simp)]
    | succ m =>
      simp only [List.drop_succ_cons, List.length_cons, List.reverse_cons,
        Nat.succ_sub_succ]
      rw [ih m, List.take_append_eq_append_take]
      have h0 : t.length - m - t.reverse.length = 0 := by
        simp only [List.length_reverse]
        omega
      rw [h0]
      simp

/-- C3 (amended): for `top_n ≥ 1` the retrieval function returns the corpus
rows ranked by descending cosine similarity, truncated to `top_n` — but
among rows with equal similarity the one appearing later in corpus order is
ranked first, because the implementation reverses a stable ascending
argsort (for `top_n = 0` the Python slice `[-0:]` would return the whole
list rather than nothing). -/
theorem find_most_similar_ranked (sims : List ℚ) (data : List Str) (top_n : ℕ)
    (h : 1 ≤ top_n) :
    find_most_similar_questions sims data top_n =
      ((rankedIndices sims).take top_n).map
        (fun index => (data.getD index [], sims.getD index 0)) := by
  unfold find_most_similar_questions pyLastSlice
  rw [if_neg (by omega)]
  rw [reverse_drop_eq_take_reverse, argsortAsc_reverse_eq]
  have hlen : (argsortAsc sims).length = sims.length := by
    have h1 := (List.perm_insertionSort (ascRel sims) (List.range sims.length)).length_eq
    simpa [argsortAsc] using h1
  have hlenR : (rankedIndices sims).length = sims.length := by
    have h1 := (List.perm_insertionSort (descRel sims) (List.range sims.length)).length_eq
    simpa [rankedIndices] using h1
  congr 1
  rcases le_or_lt top_n sims.length with hc | hc
  · congr 1
    omega
  · rw [List.take_of_length_le (by omega), List.take_of_length_le (by omega)]

/-- Witness for the amended C3 theorem: on the score vector [1, 1] over the
two-entry corpus [a, b] with the default top_n = 5, the retrieval result is
the descending ranking with the later entry first. -/
theorem find_most_similar_ranked_witness :
    find_most_similar_questions [1, 1] ["a".data, "b".data] 5 =
      ((rankedIndices [1, 1]).take 5).map
        (fun index => ((["a".data, "b".data].getD index []),
          ([(1 : ℚ), 1].getD index 0))) :=
  find_most_similar_ranked [1, 1] ["a".data, "b".data] 5 (by decide)

/-- C3 counterexample: with equal scores [1, 1] over the corpus [a, b], the
function ranks the later corpus entry first, not the earlier one as the
claim states. -/
theorem find_most_similar_tie_order_cex :
    find_most_similar_questions [1, 1] ["a".data, "b".data] 5 =
      [("b".data, 1), ("a".data, 1)] ∧
    find_most_similar_questions [1, 1] ["a".data, "b".data] 5 ≠
      [("a".data, 1), ("b".data, 1)] := by
  exact ⟨by decide, by decide⟩
